import Mathlib

/-!
Verification development for the readwebform repository.

Python strings are modelled as lists of Unicode code points (`List Nat`)
and byte strings as lists of byte values (`List Nat`).  The modelled
domain for header text and size-limit strings is ASCII, where the Python
regex classes and case operations used by the source coincide with the
ASCII tables written here.
-/

deriving instance DecidableEq for Except

namespace RWF

/-- Code points of a Lean string literal, used to write Python string
constants readably. -/
def cp (s : String) : List Nat := s.data.map Char.toNat

/-- ASCII lower-casing of a code point, modelling str.lower for ASCII. -/
def asciiLower (c : Nat) : Nat := if 65 ≤ c ∧ c ≤ 90 then c + 32 else c

/-- ASCII upper-casing of a code point, modelling str.upper for ASCII. -/
def asciiUpper (c : Nat) : Nat := if 97 ≤ c ∧ c ≤ 122 then c - 32 else c

/-- Characters matched by the Python str whitespace class (ASCII range):
tab, LF, VT, FF, CR, FS, GS, RS, US and space. -/
def pyWsChar (c : Nat) : Bool :=
  c == 9 || c == 10 || c == 11 || c == 12 || c == 13 ||
  c == 28 || c == 29 || c == 30 || c == 31 || c == 32

/-- ASCII decimal digit test, modelling the regex class [0-9]. -/
def isDigit (c : Nat) : Bool := 48 ≤ c && c ≤ 57

/-- Python str.strip modelled on ASCII: drop whitespace from both ends. -/
def pyStrip (l : List Nat) : List Nat :=
  ((l.dropWhile pyWsChar).reverse.dropWhile pyWsChar).reverse

/-- Index of the first occurrence of sep as a contiguous sublist. -/
def findSub (sep : List Nat) : List Nat → Option Nat
  | [] => if sep.isEmpty then some 0 else none
  | c :: tl =>
    if sep.isPrefixOf (c :: tl) then some 0
    else (findSub sep tl).map (· + 1)

/-- Split at the first occurrence of sep, modelling split(sep, 1). -/
def splitOnceSub (l sep : List Nat) : Option (List Nat × List Nat) :=
  (findSub sep l).map fun i => (l.take i, l.drop (i + sep.length))

/-- Fuel-driven worker for pySplit; fuel of length + 1 always suffices
because every step consumes at least one element. -/
def pySplitAux : Nat → List Nat → List Nat → List (List Nat)
  | 0, l, _ => [l]
  | fuel + 1, l, sep =>
    match findSub sep l with
    | none => [l]
    | some i => l.take i :: pySplitAux fuel (l.drop (i + sep.length)) sep

/-- Python bytes.split / str.split on a non-empty separator. -/
def pySplit (l sep : List Nat) : List (List Nat) :=
  if sep.isEmpty then [l] else pySplitAux (l.length + 1) l sep

/-- Drop every trailing CR or LF, modelling rstrip over those bytes. -/
def rstripCRLF (l : List Nat) : List Nat :=
  (l.reverse.dropWhile (fun c => c == 13 || c == 10)).reverse

/-- Drop every leading CR or LF, modelling lstrip over those bytes. -/
def lstripCRLF (l : List Nat) : List Nat :=
  l.dropWhile (fun c => c == 13 || c == 10)

/-- UTF-8 encoding of one code point. -/
def utf8EncodeChar (c : Nat) : List Nat :=
  if c < 0x80 then [c]
  else if c < 0x800 then [0xC0 + c / 64, 0x80 + c % 64]
  else if c < 0x10000 then
    [0xE0 + c / 4096, 0x80 + c / 64 % 64, 0x80 + c % 64]
  else
    [0xF0 + c / 262144, 0x80 + c / 4096 % 64, 0x80 + c / 64 % 64, 0x80 + c % 64]

/-- UTF-8 encoding of a code-point string, modelling str.encode. -/
def utf8Encode (s : List Nat) : List Nat := (s.map utf8EncodeChar).flatten

/-- Continuation byte test for UTF-8 decoding. -/
def isCont (b : Nat) : Bool := 0x80 ≤ b && b < 0xC0

/-- Strict UTF-8 decoding, modelling bytes.decode with default errors:
overlong forms, surrogates, truncated sequences and out-of-range lead
bytes are all rejected. -/
def utf8Decode : List Nat → Option (List Nat)
  | [] => some []
  | b :: bs =>
    if b < 0x80 then (utf8Decode bs).map (b :: ·)
    else if b < 0xC2 then none
    else if b < 0xE0 then
      match bs with
      | b1 :: bs1 =>
        if isCont b1 then (utf8Decode bs1).map (((b - 0xC0) * 64 + (b1 - 0x80)) :: ·)
        else none
      | [] => none
    else if b < 0xF0 then
      match bs with
      | b1 :: b2 :: bs2 =>
        if (if b = 0xE0 then 0xA0 ≤ b1 && b1 < 0xC0
            else if b = 0xED then 0x80 ≤ b1 && b1 < 0xA0
            else isCont b1) && isCont b2 then
          (utf8Decode bs2).map
            (((b - 0xE0) * 4096 + (b1 - 0x80) * 64 + (b2 - 0x80)) :: ·)
        else none
      | _ => none
    else if b < 0xF5 then
      match bs with
      | b1 :: b2 :: b3 :: bs3 =>
        if (if b = 0xF0 then 0x90 ≤ b1 && b1 < 0xC0
            else if b = 0xF4 then 0x80 ≤ b1 && b1 < 0x90
            else isCont b1) && isCont b2 && isCont b3 then
          (utf8Decode bs3).map
            (((b - 0xF0) * 262144 + (b1 - 0x80) * 4096 + (b2 - 0x80) * 64 + (b3 - 0x80)) :: ·)
        else none
      | _ => none
    else none

/-- Valid first-continuation range for a three-byte lead. -/
def cont3Range (b b1 : Nat) : Bool :=
  if b = 0xE0 then 0xA0 ≤ b1 && b1 < 0xC0
  else if b = 0xED then 0x80 ≤ b1 && b1 < 0xA0
  else isCont b1

/-- Valid first-continuation range for a four-byte lead. -/
def cont4Range (b b1 : Nat) : Bool :=
  if b = 0xF0 then 0x90 ≤ b1 && b1 < 0xC0
  else if b = 0xF4 then 0x80 ≤ b1 && b1 < 0x90
  else isCont b1

/-- UTF-8 decoding with errors replaced by U+FFFD, modelling
bytes.decode with errors set to replace: one replacement character per
maximal invalid subpart. -/
def utf8DecodeReplace : List Nat → List Nat
  | [] => []
  | b :: bs =>
    if b < 0x80 then b :: utf8DecodeReplace bs
    else if b < 0xC2 then 0xFFFD :: utf8DecodeReplace bs
    else if b < 0xE0 then
      match bs with
      | b1 :: bs1 =>
        if isCont b1 then ((b - 0xC0) * 64 + (b1 - 0x80)) :: utf8DecodeReplace bs1
        else 0xFFFD :: utf8DecodeReplace (b1 :: bs1)
      | [] => [0xFFFD]
    else if b < 0xF0 then
      match bs with
      | b1 :: bs1 =>
        if cont3Range b b1 then
          match bs1 with
          | b2 :: bs2 =>
            if isCont b2 then
              ((b - 0xE0) * 4096 + (b1 - 0x80) * 64 + (b2 - 0x80)) :: utf8DecodeReplace bs2
            else 0xFFFD :: utf8DecodeReplace (b2 :: bs2)
          | [] => [0xFFFD]
        else 0xFFFD :: utf8DecodeReplace (b1 :: bs1)
      | [] => [0xFFFD]
    else if b < 0xF5 then
      match bs with
      | b1 :: bs1 =>
        if cont4Range b b1 then
          match bs1 with
          | b2 :: bs2 =>
            if isCont b2 then
              match bs2 with
              | b3 :: bs3 =>
                if isCont b3 then
                  ((b - 0xF0) * 262144 + (b1 - 0x80) * 4096 + (b2 - 0x80) * 64 + (b3 - 0x80))
                    :: utf8DecodeReplace bs3
                else 0xFFFD :: utf8DecodeReplace (b3 :: bs3)
              | [] => [0xFFFD]
            else 0xFFFD :: utf8DecodeReplace (b2 :: bs2)
          | [] => [0xFFFD]
        else 0xFFFD :: utf8DecodeReplace (b1 :: bs1)
      | [] => [0xFFFD]
    else 0xFFFD :: utf8DecodeReplace bs

/-! ## Data model of multipart.py: UploadedFile and FormData

Python dict keys may be the None produced by a missing name parameter,
so field and file keys are Option (List Nat). Insertion order of dicts
is modelled by association lists with unique keys. -/

/-- Model of class UploadedFile: filename, raw content, content type and
the size recorded at construction. -/
structure UploadedFile where
  filename : List Nat
  content : List Nat
  content_type : List Nat
  size : Nat
deriving DecidableEq

/-- Value of a FormData field entry: a single string or a list of
strings, as stored by FormData.add_field. -/
inductive FieldValue where
  | single : List Nat → FieldValue
  | multi : List (List Nat) → FieldValue
deriving DecidableEq

/-- Value of a FormData file entry: one UploadedFile or a list of them,
as stored by FormData.add_file. -/
inductive FileValue where
  | singleF : UploadedFile → FileValue
  | multiF : List UploadedFile → FileValue
deriving DecidableEq

/-- Model of class FormData: insertion-ordered field and file maps. -/
structure FormData where
  fields : List (Option (List Nat) × FieldValue)
  files : List (Option (List Nat) × FileValue)
deriving DecidableEq

/-- FormData instance with no fields and no files. -/
def emptyFormData : FormData := ⟨[], []⟩

/-- First value bound to a key in an association list of field values. -/
def lookupVal (k : Option (List Nat)) :
    List (Option (List Nat) × FieldValue) → Option FieldValue
  | [] => none
  | (k0, v) :: rest => if k0 = k then some v else lookupVal k rest

/-- Promotion performed by add_field when the name already exists: a
single value becomes a two-element list, a list gets the value
appended. -/
def pushFV (fv : FieldValue) (v : List Nat) : FieldValue :=
  match fv with
  | .single e => .multi [e, v]
  | .multi es => .multi (es ++ [v])

/-- Model of FormData.add_field on the fields association list. -/
def addFieldAssoc :
    List (Option (List Nat) × FieldValue) → Option (List Nat) → List Nat →
    List (Option (List Nat) × FieldValue)
  | [], k, v => [(k, .single v)]
  | (k0, fv) :: rest, k, v =>
    if k0 = k then (k0, pushFV fv v) :: rest
    else (k0, fv) :: addFieldAssoc rest k v

/-- Promotion performed by add_file when the name already exists. -/
def pushFileV (fv : FileValue) (f : UploadedFile) : FileValue :=
  match fv with
  | .singleF e => .multiF [e, f]
  | .multiF es => .multiF (es ++ [f])

/-- Model of FormData.add_file on the files association list. -/
def addFileAssoc :
    List (Option (List Nat) × FileValue) → Option (List Nat) → UploadedFile →
    List (Option (List Nat) × FileValue)
  | [], k, f => [(k, .singleF f)]
  | (k0, fv) :: rest, k, f =>
    if k0 = k then (k0, pushFileV fv f) :: rest
    else (k0, fv) :: addFileAssoc rest k f

/-! ## parse_size_limit -/

/-- Errors raised as ValueError by the multipart module. -/
inductive MultipartError where
  | invalidSize : MultipartError
  | totalSizeExceeded : Nat → Nat → MultipartError
  | noBoundary : MultipartError
  | fileSizeExceeded : List Nat → Nat → Nat → MultipartError
deriving DecidableEq

/-- Numeric value of a run of ASCII digits. -/
def digitsToNat (ds : List Nat) : Nat := ds.foldl (fun a c => a * 10 + (c - 48)) 0

/-- Multiplier of the optional upper-case unit suffix of the code
regex: nothing means bytes, K, M or G select the powers of 1024. -/
def unitMultU (rest : List Nat) : Option Nat :=
  match rest with
  | [] => some 1
  | [u] =>
    if u = 75 then some 1024
    else if u = 77 then some (1024 * 1024)
    else if u = 71 then some (1024 * 1024 * 1024)
    else none
  | _ => none

/-- Anchored match of the code regex on the upper-cased string: digits
then an optional K, M or G unit, returning the value and multiplier. -/
def sizeMatchU (t : List Nat) : Option (Nat × Nat) :=
  let ds := t.takeWhile isDigit
  if ds.isEmpty then none
  else
    match unitMultU (t.drop ds.length) with
    | some m => some (digitsToNat ds, m)
    | none => none

/-- Model of parse_size_limit: falsy input yields no limit, otherwise
the stripped upper-cased string must match the size regex. -/
def parse_size_limit (limit : Option (List Nat)) :
    Except MultipartError (Option Nat) :=
  match limit with
  | none => .ok none
  | some s =>
    if s.isEmpty then .ok none
    else
      match sizeMatchU ((pyStrip s).map asciiUpper) with
      | none => .error .invalidSize
      | some (v, m) => .ok (some (v * m))

/-! ## extract_boundary and extract_value_from_header -/

/-- Case-insensitive test that pat (given lower-cased) starts s. -/
def lowerStarts (pat s : List Nat) : Bool :=
  decide ((s.take pat.length).map asciiLower = pat)

/-- Model of extract_boundary: leftmost case-insensitive occurrence of
the boundary parameter, captured greedily up to a semicolon, then
stripped and unquoted. -/
def extractBoundaryScan : List Nat → Option (List Nat)
  | [] => none
  | c :: tl =>
    if lowerStarts (cp "boundary=") (c :: tl) then
      let rest := (c :: tl).drop 9
      let capt := rest.takeWhile (fun x => x ≠ 59)
      if capt.isEmpty then extractBoundaryScan tl else some capt
    else extractBoundaryScan tl

/-- Quote removal step of extract_boundary. -/
def unquoteBoundary (b : List Nat) : List Nat :=
  if b.head? = some 34 ∧ b.getLast? = some 34 then (b.drop 1).dropLast else b

/-- Model of extract_boundary on the Content-Type header value. -/
def extract_boundary (ct : List Nat) : Option (List Nat) :=
  (extractBoundaryScan ct).map fun b => unquoteBoundary (pyStrip b)

/-- Characters the unquoted alternative of the parameter regex may
capture: anything but a semicolon or whitespace. -/
def paramTokChar (c : Nat) : Bool := c ≠ 59 && !(pyWsChar c)

/-- Attempt of the parameter regex alternation at one position, on the
text following the equals sign: the outer some means the regex matched
here, and its payload is the group-1-or-group-2 result where an empty
quoted capture collapses to none exactly as the Python or does. -/
def extractHere (rest : List Nat) : Option (Option (List Nat)) :=
  match rest with
  | 34 :: tl =>
    let inner := tl.takeWhile (fun c => c ≠ 34)
    if inner.length < tl.length then
      some (if inner.isEmpty then none else some inner)
    else some (some (rest.takeWhile paramTokChar))
  | _ =>
    let capt := rest.takeWhile paramTokChar
    if capt.isEmpty then none else some (some capt)

/-- Leftmost-match scan of the parameter regex over the header. -/
def extractScan (param : List Nat) : List Nat → Option (List Nat)
  | [] => none
  | c :: tl =>
    if lowerStarts (param ++ [61]) (c :: tl) then
      match extractHere ((c :: tl).drop (param.length + 1)) with
      | some r => r
      | none => extractScan param tl
    else extractScan param tl

/-- Model of extract_value_from_header for a lower-case parameter name. -/
def extract_value_from_header (header param : List Nat) : Option (List Nat) :=
  extractScan param header

/-! ## split_multipart_body and parse_part -/

/-- Model of split_multipart_body: split the body on the encoded
boundary marker, discard the preamble, stop at the closing marker, trim
leading CRLF from each part and drop empty parts. -/
def takeUntilClose : List (List Nat) → List (List Nat)
  | [] => []
  | part :: rest =>
    if (cp "--").isPrefixOf part then []
    else
      let p := lstripCRLF part
      if p.isEmpty then takeUntilClose rest else p :: takeUntilClose rest

/-- Model of split_multipart_body. -/
def split_multipart_body (body boundary : List Nat) : List (List Nat) :=
  let bb := utf8Encode (cp "--" ++ boundary)
  takeUntilClose ((pySplit body bb).drop 1)

/-- Fuel-driven universal-newline line splitter for the header block. -/
def splitLinesAux : Nat → List Nat → List (List Nat)
  | 0, l => [l]
  | _ + 1, [] => []
  | fuel + 1, l =>
    let line := l.takeWhile (fun c => c ≠ 13 && c ≠ 10)
    match l.drop line.length with
    | [] => [line]
    | 13 :: 10 :: r => line :: splitLinesAux fuel r
    | _ :: r => line :: splitLinesAux fuel r

/-- Splitting the header block into lines on CRLF, CR or LF. -/
def splitLinesU (l : List Nat) : List (List Nat) := splitLinesAux (l.length + 1) l

/-- Extension of the last header value by a folded continuation line. -/
def appendToLast :
    List (List Nat × List Nat) → List Nat → List (List Nat × List Nat)
  | [], _ => []
  | [(k, v)], ext => [(k, v ++ ext)]
  | p :: rest, ext => p :: appendToLast rest ext

/-- Header-line accumulation of the email parser: ordinary lines add a
lower-cased key with the value after the colon, continuation lines fold
into the previous value, and a malformed line ends the header block. -/
def headerLineFold :
    List (List Nat × List Nat) → List (List Nat) → List (List Nat × List Nat)
  | acc, [] => acc
  | acc, line :: rest =>
    if line.head? = some 32 ∨ line.head? = some 9 then
      headerLineFold (appendToLast acc (10 :: line)) rest
    else if line.contains 58 then
      let key := (line.takeWhile (fun c => c ≠ 58)).map asciiLower
      let value := ((line.dropWhile (fun c => c ≠ 58)).drop 1).dropWhile
        (fun c => c == 32 || c == 9)
      headerLineFold (acc ++ [(key, value)]) rest
    else acc

/-- First value stored under a key in a header association list. -/
def lookupHeader : List (List Nat × List Nat) → List Nat → Option (List Nat)
  | [], _ => none
  | (k, v) :: rest, key => if k = key then some v else lookupHeader rest key

/-- Model of the header side of parse_part: the dummy From header is
prepended for the email parser and every from key is dropped again when
the dictionary is built. -/
def parseHeaderBlock (hdr : List Nat) : List (List Nat × List Nat) :=
  (headerLineFold [(cp "from", cp "dummy")] (splitLinesU hdr)).filter
    (fun p => p.1 ≠ cp "from")

/-- Model of parse_part: split the part at the first blank line, right
trim the content of CR and LF, and parse the header block. -/
def parse_part (part : List Nat) : List (List Nat × List Nat) × List Nat :=
  let split :=
    match splitOnceSub part [13, 10, 13, 10] with
    | some p => p
    | none =>
      match splitOnceSub part [10, 10] with
      | some p => p
      | none => (part, [])
  (parseHeaderBlock split.1, rstripCRLF split.2)

/-! ## parse_multipart -/

/-- Content-Disposition value of a part, defaulting to the empty
string. -/
def partDisposition (part : List Nat) : List Nat :=
  (lookupHeader (parse_part part).1 (cp "content-disposition")).getD []

/-- Extracted name parameter of a part. -/
def partName (part : List Nat) : Option (List Nat) :=
  extract_value_from_header (partDisposition part) (cp "name")

/-- Extracted filename parameter of a part. -/
def partFilename (part : List Nat) : Option (List Nat) :=
  extract_value_from_header (partDisposition part) (cp "filename")

/-- Content bytes of a part after parse_part. -/
def partContent (part : List Nat) : List Nat := (parse_part part).2

/-- Content-Type header of a part with the octet-stream default. -/
def partContentType (part : List Nat) : List Nat :=
  (lookupHeader (parse_part part).1 (cp "content-type")).getD
    (cp "application/octet-stream")

/-- Truthy per-file size check of parse_multipart: a limit of 0 is
falsy in Python and disables the check. -/
def fileTooBig (mfs : Option Nat) (content : List Nat) : Bool :=
  match mfs with
  | some m => decide (m ≠ 0) && decide (content.length > m)
  | none => false

/-- Field content decoding of parse_multipart: a UnicodeDecodeError is
replaced by the empty string. -/
def decodeFieldContent (c : List Nat) : List Nat := (utf8Decode c).getD []

/-- Loop body of parse_multipart over one part. -/
def processPart (mfs : Option Nat) (st : FormData) (part : List Nat) :
    Except MultipartError FormData :=
  if part.isEmpty then .ok st
  else
    match partFilename part with
    | some f =>
      if f.isEmpty then
        .ok { st with fields := addFieldAssoc st.fields (partName part) (decodeFieldContent (partContent part)) }
      else if fileTooBig mfs (partContent part) then
        .error (.fileSizeExceeded f (partContent part).length (mfs.getD 0))
      else
        let uf : UploadedFile :=
          ⟨f, partContent part, partContentType part, (partContent part).length⟩
        .ok { st with files := addFileAssoc st.files (partName part) uf }
    | none =>
      .ok { st with fields := addFieldAssoc st.fields (partName part) (decodeFieldContent (partContent part)) }

/-- Truthy total-size check of parse_multipart: an unset or zero limit
is falsy in Python and disables the check. -/
def totalTooBig (mts : Option Nat) (body : List Nat) : Bool :=
  match mts with
  | some m => decide (m ≠ 0) && decide (body.length > m)
  | none => false

/-- Model of parse_multipart: the total-size check comes first, then the
boundary is extracted, the body is split and every part is folded
through processPart. -/
def parse_multipart (body ct : List Nat) (mfs mts : Option Nat) :
    Except MultipartError FormData :=
  if totalTooBig mts body then .error (.totalSizeExceeded body.length (mts.getD 0))
  else
    match extract_boundary ct with
    | none => .error .noBoundary
    | some b =>
      if b.isEmpty then .error .noBoundary
      else (split_multipart_body body b).foldlM (processPart mfs) emptyFormData

/-! ## parse_urlencoded, modelling urllib parse_qs with blank values -/

/-- Hexadecimal digit test for percent decoding. -/
def isHexDigit (c : Nat) : Bool :=
  isDigit c || (65 ≤ c && c ≤ 70) || (97 ≤ c && c ≤ 102)

/-- Value of a hexadecimal digit. -/
def hexVal (c : Nat) : Nat :=
  if isDigit c then c - 48 else if c ≤ 70 then c - 55 else c - 87

/-- Collection of a maximal run of percent-encoded bytes, returning the
bytes and the unconsumed remainder. -/
def collectPct : List Nat → List Nat × List Nat
  | 37 :: h1 :: h2 :: rest =>
    if isHexDigit h1 && isHexDigit h2 then
      let p := collectPct rest
      ((hexVal h1 * 16 + hexVal h2) :: p.1, p.2)
    else ([], 37 :: h1 :: h2 :: rest)
  | l => ([], l)

/-- Fuel-driven worker for percent decoding; runs of encoded bytes are
decoded together as UTF-8 with replacement, other characters pass
through, and a percent sign without two hex digits stays literal. -/
def percentDecodeAux : Nat → List Nat → List Nat
  | 0, l => l
  | _ + 1, [] => []
  | fuel + 1, c :: rest =>
    if c = 37 then
      match collectPct (c :: rest) with
      | ([], _) => c :: percentDecodeAux fuel rest
      | (bs, r) => utf8DecodeReplace bs ++ percentDecodeAux fuel r
    else c :: percentDecodeAux fuel rest

/-- Model of urllib unquote with UTF-8 replacement semantics. -/
def percentDecode (l : List Nat) : List Nat := percentDecodeAux (l.length + 1) l

/-- Model of unquote_plus: plus signs become spaces, then percent
sequences are decoded. -/
def unquotePlus (l : List Nat) : List Nat :=
  percentDecode (l.map fun c => if c = 43 then 32 else c)

/-- Model of parse_qsl with keep_blank_values: split on ampersands,
skip empty chunks, split each chunk at its first equals sign with a
missing value kept blank, and unquote names and values. -/
def parse_qsl (s : List Nat) : List (List Nat × List Nat) :=
  (pySplit s [38]).filterMap fun chunk =>
    if chunk.isEmpty then none
    else
      match findSub [61] chunk with
      | some i => some (unquotePlus (chunk.take i), unquotePlus (chunk.drop (i + 1)))
      | none => some (unquotePlus chunk, [])

/-- Append of one occurrence into the per-key value lists of parse_qs. -/
def pyGroupAdd :
    List (List Nat × List (List Nat)) → List Nat → List Nat →
    List (List Nat × List (List Nat))
  | [], k, v => [(k, [v])]
  | (k0, vs) :: rest, k, v =>
    if k0 = k then (k0, vs ++ [v]) :: rest
    else (k0, vs) :: pyGroupAdd rest k v

/-- Insertion-ordered grouping of parse_qs. -/
def pyGroup (ps : List (List Nat × List Nat)) :
    List (List Nat × List (List Nat)) :=
  ps.foldl (fun acc p => pyGroupAdd acc p.1 p.2) []

/-- Collapse of a parse_qs value list as done by parse_urlencoded: a
one-element list is stored as its string, anything else as the list. -/
def collapseVals (vs : List (List Nat)) : FieldValue :=
  match vs with
  | [v] => .single v
  | vs => .multi vs

/-- Model of parse_urlencoded: bodies that are not valid UTF-8 yield an
empty FormData because the UnicodeDecodeError is swallowed. -/
def parse_urlencoded (body : List Nat) : FormData :=
  match utf8Decode body with
  | none => emptyFormData
  | some s =>
    { fields := (pyGroup (parse_qsl s)).map fun g => (some g.1, collapseVals g.2)
      files := [] }

/-! ## sanitize_filename -/

/-- ASCII word character of the Python regex class backslash-w. -/
def pyWordChar (c : Nat) : Bool :=
  (65 ≤ c && c ≤ 90) || (97 ≤ c && c ≤ 122) || isDigit c || c == 95

/-- Characters kept by the substitution step of sanitize_filename in
the ASCII range: word characters, whitespace, dot and hyphen. -/
def keepChar (c : Nat) : Bool := pyWordChar c || pyWsChar c || c == 46 || c == 45

/-- Final path segment, modelling os.path.basename after backslash
replacement. -/
def basenameOf (l : List Nat) : List Nat :=
  (l.reverse.takeWhile (fun c => c ≠ 47)).reverse

/-- Model of sanitize_filename: backslashes become slashes, the final
segment is taken, characters outside the kept class become
underscores, the result is truncated to 255 code points, and an empty
or dot-only result becomes upload. -/
def sanitize_filename (s : List Nat) : List Nat :=
  let s1 := s.map fun c => if c = 92 then 47 else c
  let s2 := basenameOf s1
  let s3 := s2.map fun c => if keepChar c then c else 95
  let s4 := if s3.length > 255 then s3.take 255 else s3
  if s4 = [] ∨ s4 = [46] ∨ s4 = [46, 46] then cp "upload" else s4

/-- Characters of the class [A-Za-z0-9 _.-] named by the specification
sentence on filename sanitisation. -/
def specClaimChar (c : Nat) : Bool :=
  (65 ≤ c && c ≤ 90) || (97 ≤ c && c ≤ 122) || isDigit c ||
  c == 32 || c == 95 || c == 46 || c == 45

/-- Sanitisation pipeline written from the words of the specification
claim, with its literal character class. -/
def sanitizeClaim (s : List Nat) : List Nat :=
  let s1 := s.map fun c => if c = 92 then 47 else c
  let s2 := basenameOf s1
  let s3 := s2.map fun c => if specClaimChar c then c else 95
  let s4 := if s3.length > 255 then s3.take 255 else s3
  if s4 = [] ∨ s4 = [46] ∨ s4 = [46, 46] then cp "upload" else s4

/-- Character class of the amended claim: the specified class plus the
remaining ASCII whitespace characters. -/
def specAmendedChar (c : Nat) : Bool := specClaimChar c || pyWsChar c

/-- Sanitisation pipeline of the amended claim. -/
def sanitizeAmended (s : List Nat) : List Nat :=
  let s1 := s.map fun c => if c = 92 then 47 else c
  let s2 := basenameOf s1
  let s3 := s2.map fun c => if specAmendedChar c then c else 95
  let s4 := if s3.length > 255 then s3.take 255 else s3
  if s4 = [] ∨ s4 = [46] ∨ s4 = [46, 46] then cp "upload" else s4

/-! ## Size-regex predicate written from the claim -/

/-- Multiplier of the optional unit suffix read case-insensitively, as
the claim regex describes it. -/
def unitMultSpec (rest : List Nat) : Option Nat :=
  match rest with
  | [] => some 1
  | [u] =>
    if u = 75 ∨ u = 107 then some 1024
    else if u = 77 ∨ u = 109 then some (1024 * 1024)
    else if u = 71 ∨ u = 103 then some (1024 * 1024 * 1024)
    else none
  | _ => none

/-- Decidable form of the claim regex on sizes: one or more ASCII
digits followed by an optional K, M or G in either case. -/
def specSizeRegexAccepts (s : List Nat) : Bool :=
  let ds := s.takeWhile isDigit
  !ds.isEmpty && (unitMultSpec (s.drop ds.length)).isSome

/-- Value computed by the claim regex when it accepts, with the unit
multipliers of the specification. -/
def specSizeValue (s : List Nat) : Option Nat :=
  let ds := s.takeWhile isDigit
  if ds.isEmpty then none
  else (unitMultSpec (s.drop ds.length)).map (digitsToNat ds * ·)

/-! ## Request handler model of FormServerHandler.do_POST

File saving to disk is input/output; the possibility of a storage
failure is modelled by the storageFails flag of the request
environment, with the 500 branch of the handler taken when a file must
be written and storage fails. The branch in which the socket read
itself raises is not modelled. -/

/-- Model of int() on a header string: surrounding whitespace, an
optional sign, then ASCII digits with single underscores allowed
between digits. -/
def pyDigitsGo (acc : Nat) : List Nat → Option Nat
  | [] => some acc
  | 95 :: c :: rest =>
    if isDigit c then pyDigitsGo (acc * 10 + (c - 48)) rest else none
  | c :: rest =>
    if isDigit c then pyDigitsGo (acc * 10 + (c - 48)) rest else none

/-- Digit-run value of int() after the sign. -/
def pyDigitsVal : List Nat → Option Nat
  | c :: rest => if isDigit c then pyDigitsGo (c - 48) rest else none
  | [] => none

/-- Model of Python int() applied to a string, none meaning ValueError. -/
def pyParseInt (s : List Nat) : Option Int :=
  match pyStrip s with
  | 43 :: r => (pyDigitsVal r).map Int.ofNat
  | 45 :: r => (pyDigitsVal r).map fun n => -(Int.ofNat n)
  | r => (pyDigitsVal r).map Int.ofNat

/-- Path component of urlparse: the text before any query or fragment,
with a parameter suffix of the last segment removed. -/
def pyUrlparsePath (s : List Nat) : List Nat :=
  let p := s.takeWhile fun c => c ≠ 63 && c ≠ 35
  let start :=
    if p.contains 47 then p.length - (p.reverse.takeWhile (fun c => c ≠ 47)).length - 1
    else 0
  match (findSub [59] (p.drop start)).map (· + start) with
  | some i => p.take i
  | none => p

/-- Built-in fallback body cap DEFAULT_MAX_BODY_SIZE of 20 MiB. -/
def DEFAULT_MAX_BODY_SIZE : Nat := 20 * 1024 * 1024

/-- Per-run handler configuration taken from the class variables set by
FormServer.serve; resetOnError records whether a reset callback was
installed. -/
structure HandlerConfig where
  csrfToken : List Nat
  endpoint : List Nat
  maxFileSize : Option Nat
  maxTotalSize : Option Nat
  resetOnError : Bool
deriving DecidableEq

/-- One POST request together with the storage behaviour of its run. -/
structure PostRequest where
  path : List Nat
  contentTypeHdr : Option (List Nat)
  contentLengthHdr : Option (List Nat)
  body : List Nat
  storageFails : Bool
deriving DecidableEq

/-- Observable outcome of one do_POST call. -/
structure HandlerOutcome where
  status : Nat
  deadlineReset : Bool
  bodyRead : Bool
  successPublished : Bool
  publishedData : Option FormData
  shutdownScheduled : Bool
deriving DecidableEq

/-- Content length computed by the handler: a missing header defaults
to the integer 0, a present header goes through int(). -/
def contentLengthOf (req : PostRequest) : Option Int :=
  match req.contentLengthHdr with
  | none => some 0
  | some h => pyParseInt h

/-- Effective total cap: the configured limit when truthy, otherwise
the built-in default. -/
def effectiveMax (cfg : HandlerConfig) : Nat :=
  match cfg.maxTotalSize with
  | some m => if m = 0 then DEFAULT_MAX_BODY_SIZE else m
  | none => DEFAULT_MAX_BODY_SIZE

/-- Bytes obtained by reading contentLength bytes from the stream; a
negative count reads everything. -/
def requestBody (req : PostRequest) (cl : Int) : List Nat :=
  if cl < 0 then req.body else req.body.take cl.toNat

/-- Dispatch on Content-Type: multipart when the header contains the
multipart marker, urlencoded otherwise. -/
def decodeBody (cfg : HandlerConfig) (body ct : List Nat) :
    Except MultipartError FormData :=
  if (findSub (cp "multipart/form-data") ct).isSome then
    parse_multipart body ct cfg.maxFileSize cfg.maxTotalSize
  else .ok (parse_urlencoded body)

/-- CSRF comparison of the handler: fields.get with an empty-string
default compared to the token, where a list value never equals a
string. -/
def tokenMatches (fd : FormData) (token : List Nat) : Bool :=
  match lookupVal (some (cp "_csrf_token")) fd.fields with
  | none => decide (token = ([] : List Nat))
  | some (.single v) => decide (v = token)
  | some (.multi _) => false

/-- Removal of the CSRF field before publication. -/
def removeCsrf (fd : FormData) : FormData :=
  { fd with fields := fd.fields.filter fun p => p.1 ≠ some (cp "_csrf_token") }

/-- Decode stage reached by a request: none when the handler exits
before parsing the body, otherwise the decoder result. -/
def requestFormResult (cfg : HandlerConfig) (req : PostRequest) :
    Option (Except MultipartError FormData) :=
  if pyUrlparsePath req.path ≠ cfg.endpoint then none
  else
    match contentLengthOf req with
    | none => none
    | some cl =>
      if cl > (effectiveMax cfg : Int) then none
      else some (decodeBody cfg (requestBody req cl) (req.contentTypeHdr.getD []))

/-- Model of FormServerHandler.do_POST. -/
def do_POST (cfg : HandlerConfig) (req : PostRequest) : HandlerOutcome :=
  if pyUrlparsePath req.path ≠ cfg.endpoint then
    ⟨404, false, false, false, none, false⟩
  else
    match contentLengthOf req with
    | none => ⟨400, false, false, false, none, false⟩
    | some cl =>
      if cl > (effectiveMax cfg : Int) then
        ⟨413, cfg.resetOnError, false, false, none, false⟩
      else
        match decodeBody cfg (requestBody req cl) (req.contentTypeHdr.getD []) with
        | .error _ => ⟨413, cfg.resetOnError, true, false, none, false⟩
        | .ok fd =>
          if tokenMatches fd cfg.csrfToken then
            let fd2 := removeCsrf fd
            if req.storageFails && decide (fd2.files ≠ []) then
              ⟨500, false, true, false, none, false⟩
            else ⟨200, false, true, true, some fd2, true⟩
          else ⟨403, cfg.resetOnError, true, false, none, false⟩

/-! ## Lifecycle model of FormServer.serve

The run is modelled as a sequence of atomic events on the shared state:
acceptance of a POST that will reach the success callback, the firing
of the deadline timer, and the success callback itself. The timer fire
requires a live timer, models _on_timeout setting timed_out and the
shutdown event and closing the listener, after which no new connection
is accepted; the success callback models _on_success cancelling the
timer and filling the success state. Nothing in _on_success consults
timed_out, so a handler accepted before the fire may still publish
afterwards. -/

/-- File metadata entry published on success. -/
structure FileMeta where
  filename : List Nat
  path : List Nat
  size : Nat
  content_type : List Nat
deriving DecidableEq

/-- Shared run state of FormServer. -/
structure ServeState where
  timedOut : Bool
  success : Bool
  timerAlive : Bool
  shutdownEvent : Bool
  handlerInFlight : Bool
  formDataSlot : Option FormData
  fileMetaSlot : List (List Nat × FileMeta)
deriving DecidableEq

/-- Run state at the start of serve, after the timer is armed. -/
def serveInit : ServeState := ⟨false, false, true, false, false, none, []⟩

/-- Atomic events of a run. -/
inductive ServeEvent where
  | acceptPost : ServeEvent
  | timeoutFire : ServeEvent
  | successPublish : FormData → List (List Nat × FileMeta) → ServeEvent
deriving DecidableEq

/-- One atomic transition; none means the event cannot occur in the
given state. -/
def serveStep (s : ServeState) : ServeEvent → Option ServeState
  | .acceptPost =>
    if s.timedOut then none else some { s with handlerInFlight := true }
  | .timeoutFire =>
    if s.timerAlive then
      some { s with timedOut := true, timerAlive := false, shutdownEvent := true }
    else none
  | .successPublish fd meta =>
    if s.handlerInFlight then
      some { s with timerAlive := false, success := true, shutdownEvent := true,
                    handlerInFlight := false, formDataSlot := some fd,
                    fileMetaSlot := meta }
    else none

/-- Execution of a sequence of events from a state. -/
def serveRun (s : ServeState) : List ServeEvent → Option ServeState
  | [] => some s
  | e :: es =>
    match serveStep s e with
    | none => none
    | some s2 => serveRun s2 es

/-- Return value of serve: the timeout outcome wins whenever timed_out
is set, otherwise the success flag and slots are returned. -/
def serveReturn (s : ServeState) :
    Bool × Option FormData × List (List Nat × FileMeta) :=
  if s.timedOut then (false, none, []) else (s.success, s.formDataSlot, s.fileMetaSlot)

/-! ## Output model of format_json_output and the timeout exit path -/

/-- JSON values produced by the output layer. -/
inductive Json where
  | null : Json
  | jbool : Bool → Json
  | jstr : List Nat → Json
  | jnum : Int → Json
  | jarr : List Json → Json
  | jobj : List (List Nat × Json) → Json

/-- Model of format_json_output: the fixed four-key envelope. -/
def format_json_output (fields files : List (List Nat × Json)) (success : Bool)
    (error : Option (List Nat)) : Json :=
  .jobj [(cp "success", .jbool success), (cp "fields", .jobj fields),
         (cp "files", .jobj files),
         (cp "error", match error with | none => .null | some e => .jstr e)]

/-- JSON rendering of a stored field value. -/
def jsonOfFieldValue : FieldValue → Json
  | .single v => .jstr v
  | .multi vs => .jarr (vs.map .jstr)

/-- JSON key of a Python dict key, where the None key renders as the
string null. -/
def jsonKey (k : Option (List Nat)) : List Nat := k.getD (cp "null")

/-- JSON object entries of the fields dictionary. -/
def jsonOfFields (fs : List (Option (List Nat) × FieldValue)) :
    List (List Nat × Json) :=
  fs.map fun p => (jsonKey p.1, jsonOfFieldValue p.2)

/-- JSON object entries of the file metadata dictionary. -/
def jsonOfMeta (m : List (List Nat × FileMeta)) : List (List Nat × Json) :=
  m.map fun p =>
    (p.1, .jobj [(cp "filename", .jstr p.2.filename), (cp "path", .jstr p.2.path),
                 (cp "size", .jnum (Int.ofNat p.2.size)),
                 (cp "content_type", .jstr p.2.content_type)])

/-- Exit code EXIT_TIMEOUT of core.py. -/
def EXIT_TIMEOUT : Nat := 5

/-- Exit code EXIT_SUCCESS of core.py. -/
def EXIT_SUCCESS : Nat := 0

/-- Model of the tail of run_readwebform after serve returns: the JSON
envelope printed to standard output, when any, and the exit code. The
print_env mode skips the JSON envelope. -/
def runAfterServe (printEnv : Bool)
    (r : Bool × Option FormData × List (List Nat × FileMeta)) :
    Option Json × Nat :=
  match r with
  | (false, _, _) =>
    ((if printEnv then none
      else some (format_json_output [] [] false (some (cp "timeout")))),
     EXIT_TIMEOUT)
  | (true, fd, meta) =>
    ((if printEnv then none
      else some (format_json_output (jsonOfFields ((fd.getD emptyFormData).fields))
        (jsonOfMeta meta) true none)),
     EXIT_SUCCESS)

/-! ## Shared lemmas -/

/-- One step keeps the timeout flag set once it is set. -/
theorem serveStep_timedOut_mono {s s2 : ServeState} {e : ServeEvent}
    (h : serveStep s e = some s2) (ht : s.timedOut = true) : s2.timedOut = true := by
  cases e with
  | acceptPost =>
    simp only [serveStep] at h
    rw [if_pos ht] at h
    exact Option.noConfusion h
  | timeoutFire =>
    simp only [serveStep] at h
    split at h
    · rw [Option.some_inj] at h
      subst h
      rfl
    · exact Option.noConfusion h
  | successPublish fd meta =>
    simp only [serveStep] at h
    split at h
    · rw [Option.some_inj] at h
      subst h
      exact ht
    · exact Option.noConfusion h

/-- A whole run keeps the timeout flag set once it is set. -/
theorem serveRun_timedOut_mono : ∀ (evs : List ServeEvent) (s s2 : ServeState),
    serveRun s evs = some s2 → s.timedOut = true → s2.timedOut = true := by
  intro evs
  induction evs with
  | nil =>
    intro s s2 h ht
    simp only [serveRun, Option.some_inj] at h
    subst h
    exact ht
  | cons e rest ih =>
    intro s s2 h ht
    simp only [serveRun] at h
    cases hs : serveStep s e with
    | none => rw [hs] at h; exact Option.noConfusion h
    | some s1 =>
      rw [hs] at h
      exact ih s1 s2 h (serveStep_timedOut_mono hs ht)

/-- Run decomposition along list append. -/
theorem serveRun_append : ∀ (l1 l2 : List ServeEvent) (s : ServeState),
    serveRun s (l1 ++ l2) = (serveRun s l1).bind fun s1 => serveRun s1 l2 := by
  intro l1
  induction l1 with
  | nil => intro l2 s; rfl
  | cons e rest ih =>
    intro l2 s
    simp only [List.cons_append, serveRun]
    cases hs : serveStep s e with
    | none => simp
    | some s1 => simpa using ih l2 s1

/-! ## Claim C1 -/

/-- Claim C1, counterexample: with a configured total-size cap of 0 and
a one-byte body, parse_multipart does not fail with TotalSizeExceeded
as the claim demands; the cap is falsy in Python, parsing proceeds and
fails later at boundary extraction. -/
theorem c1_counterexample :
    parse_multipart [97] [] none (some 0) = .error .noBoundary ∧
    (Except.error MultipartError.noBoundary : Except MultipartError FormData) ≠
      .error (.totalSizeExceeded 1 0) := by
  exact ⟨by decide, by decide⟩

/-- Claim C1, amended: for every body b and every configured total-size
cap c with c positive, if the body is longer than c then parse_multipart
fails with TotalSizeExceeded before any parsing work, for every
content type and per-file limit; a cap of 0 is treated as no cap. -/
theorem c1_total_size_checked_first (body ct : List Nat) (mfs : Option Nat)
    (c : Nat) (hc : 0 < c) (hlen : body.length > c) :
    parse_multipart body ct mfs (some c) =
      .error (.totalSizeExceeded body.length c) := by
  have htot : totalTooBig (some c) body = true := by
    simp only [totalTooBig, Bool.and_eq_true, decide_eq_true_eq]
    omega
  simp [parse_multipart, htot]

/-- Witness for the amended claim C1 at a concrete body and cap. -/
theorem c1_total_size_checked_first_witness :
    parse_multipart [97, 98] [] none (some 1) = .error (.totalSizeExceeded 2 1) :=
  c1_total_size_checked_first [97, 98] [] none 1 (by decide) (by decide)

/-! ## Claim C2 -/

/-- Claim C2, counterexample: a POST accepted before the deadline fires
may publish success after the fire, filling both the timeout flag and
the success slot in one run, and serve then returns the timeout
outcome even though the success slot is filled. -/
theorem c2_counterexample :
    serveRun serveInit
      [.acceptPost, .timeoutFire, .successPublish emptyFormData []] =
      some ⟨true, true, false, true, false, some emptyFormData, []⟩ ∧
    serveReturn ⟨true, true, false, true, false, some emptyFormData, []⟩ =
      (false, none, []) := by
  exact ⟨by decide, by decide⟩

/-- Claim C2, amended: if serve returns with success true then the
timeout slot was never filled at any point of the run; and whenever the
timeout flag is set at return time, serve returns the timeout outcome,
discarding any success publication, so the return value stays
unambiguous even when both slots were filled. -/
theorem c2_slots_amended (evs : List ServeEvent) (s : ServeState)
    (hrun : serveRun serveInit evs = some s) :
    ((serveReturn s).1 = true →
      ∀ evs1 evs2 s1, evs = evs1 ++ evs2 → serveRun serveInit evs1 = some s1 →
        s1.timedOut = false) ∧
    (s.timedOut = true → serveReturn s = (false, none, [])) := by
  constructor
  · intro hsucc evs1 evs2 s1 hsplit hrun1
    have hsf : s.timedOut = false := by
      by_contra hcon
      have ht : s.timedOut = true := by
        revert hcon; cases s.timedOut <;> simp
      rw [serveReturn, if_pos ht] at hsucc
      exact Bool.noConfusion hsucc
    by_contra h1
    have h1t : s1.timedOut = true := by
      revert h1; cases s1.timedOut <;> simp
    have hr2 : serveRun s1 evs2 = some s := by
      rw [hsplit, serveRun_append, hrun1] at hrun
      simpa using hrun
    have := serveRun_timedOut_mono evs2 s1 s hr2 h1t
    rw [this] at hsf
    exact Bool.noConfusion hsf
  · intro ht
    simp [serveReturn, ht]

/-- Witness for the amended claim C2: a run that accepts a POST and
publishes success never set the timeout flag at the intermediate
state. -/
theorem c2_slots_amended_witness :
    (⟨false, false, true, false, true, none, []⟩ : ServeState).timedOut = false :=
  (c2_slots_amended [.acceptPost, .successPublish emptyFormData []]
      ⟨false, true, false, true, false, some emptyFormData, []⟩ (by decide)).1
    (by decide) [.acceptPost] [.successPublish emptyFormData []]
    ⟨false, false, true, false, true, none, []⟩ rfl (by decide)

/-! ## Claim C4 -/

/-- Claim C4: every run that ends timed out with no successful
submission hands the caller the triple of false, no form data and no
files, the JSON envelope printed in JSON output mode is the fixed
success-false timeout object, and the exit code is 5. -/
theorem c4_timeout_output (evs : List ServeEvent) (s : ServeState)
    (hrun : serveRun serveInit evs = some s) (hto : s.timedOut = true)
    (hns : s.success = false) :
    serveReturn s = (false, none, []) ∧
    runAfterServe false (serveReturn s) =
      (some (Json.jobj [(cp "success", .jbool false), (cp "fields", .jobj []),
        (cp "files", .jobj []), (cp "error", .jstr (cp "timeout"))]),
       EXIT_TIMEOUT) := by
  have h1 : serveReturn s = (false, none, []) := by
    simp [serveReturn, hto]
  refine ⟨h1, ?_⟩
  rw [h1]
  rfl

/-- Witness for claim C4: the run consisting of a single deadline
fire. -/
theorem c4_timeout_output_witness :
    serveReturn ⟨true, false, false, true, false, none, []⟩ = (false, none, []) ∧
    runAfterServe false (serveReturn ⟨true, false, false, true, false, none, []⟩) =
      (some (Json.jobj [(cp "success", .jbool false), (cp "fields", .jobj []),
        (cp "files", .jobj []), (cp "error", .jstr (cp "timeout"))]),
       EXIT_TIMEOUT) :=
  c4_timeout_output [.timeoutFire] ⟨true, false, false, true, false, none, []⟩
    (by decide) rfl rfl

/-! ## Claim C5 -/

/-- Claim C5, counterexample: with no Content-Length header the handler
does not answer 400 — the length defaults to 0 and the empty body
fails the CSRF check with 403; with a non-integer header it answers
400 but does not reset the deadline. -/
theorem c5_counterexample :
    do_POST ⟨cp "tok", cp "/e", none, none, true⟩
      ⟨cp "/e", none, none, [], false⟩ = ⟨403, true, true, false, none, false⟩ ∧
    do_POST ⟨cp "tok", cp "/e", none, none, true⟩
      ⟨cp "/e", none, some (cp "abc"), [], false⟩ =
      ⟨400, false, false, false, none, false⟩ := by
  exact ⟨by decide, by decide⟩

/-- Claim C5, amended: a POST to the endpoint whose Content-Length
header is present but not a valid integer gets 400 and returns without
reading a body, publishing success or resetting the deadline; a POST
with no Content-Length header is handled exactly as one whose header
is the string 0. -/
theorem c5_content_length_amended :
    (∀ (cfg : HandlerConfig) (req : PostRequest) (h : List Nat),
      pyUrlparsePath req.path = cfg.endpoint → req.contentLengthHdr = some h →
      pyParseInt h = none →
      do_POST cfg req = ⟨400, false, false, false, none, false⟩) ∧
    (∀ (cfg : HandlerConfig) (req : PostRequest), req.contentLengthHdr = none →
      do_POST cfg req = do_POST cfg { req with contentLengthHdr := some (cp "0") }) := by
  constructor
  · intro cfg req h hpath hhdr hbad
    have hcl : contentLengthOf req = none := by
      simp [contentLengthOf, hhdr, hbad]
    simp [do_POST, hpath, hcl]
  · intro cfg req hnone
    have h1 : contentLengthOf req = some 0 := by
      simp [contentLengthOf, hnone]
    have h2 : contentLengthOf { req with contentLengthHdr := some (cp "0") } = some 0 := by
      have hz : pyParseInt (cp "0") = some 0 := by decide
      simp [contentLengthOf, hz]
    simp only [do_POST, h1, h2]
    rfl

/-- Witness for the amended claim C5 at a concrete configuration. -/
theorem c5_content_length_amended_witness :
    do_POST ⟨cp "tok", cp "/e", none, none, true⟩
      ⟨cp "/e", none, some (cp "x9"), [], false⟩ =
      ⟨400, false, false, false, none, false⟩ ∧
    do_POST ⟨cp "tok", cp "/e", none, none, true⟩
      ⟨cp "/e", none, none, [], false⟩ =
      do_POST ⟨cp "tok", cp "/e", none, none, true⟩
        ⟨cp "/e", none, some (cp "0"), [], false⟩ :=
  ⟨c5_content_length_amended.1 _ _ (cp "x9") (by decide) rfl (by decide),
   c5_content_length_amended.2 _ ⟨cp "/e", none, none, [], false⟩ rfl⟩

/-! ## Claim C9 -/

/-- Claim C9, counterexample: on a filename with an embedded tab the
code keeps the tab, because the regex whitespace class is wider than
the single space of the specified character class. -/
theorem c9_counterexample :
    sanitize_filename (cp "a\tb") = cp "a\tb" ∧
    sanitizeClaim (cp "a\tb") = cp "a_b" ∧
    sanitize_filename (cp "a\tb") ≠ sanitizeClaim (cp "a\tb") := by
  exact ⟨by decide, by decide, by decide⟩

/-- The character class kept by the code equals the specified class
extended by the remaining ASCII whitespace. -/
theorem keepChar_eq_amended : ∀ c, keepChar c = specAmendedChar c := by
  intro c
  rw [Bool.eq_iff_iff]
  simp only [keepChar, specAmendedChar, specClaimChar, pyWordChar, pyWsChar, isDigit,
    Bool.or_eq_true, Bool.and_eq_true, decide_eq_true_eq, beq_iff_eq]
  omega

/-- Claim C9, amended: on ASCII filenames sanitisation proceeds in the
specified order, with the kept character class being the specified one
extended by the ASCII whitespace characters other than space. -/
theorem c9_sanitize_amended (s : List Nat) (hA : ∀ c ∈ s, c < 128) :
    sanitize_filename s = sanitizeAmended s := by
  have hfun : (fun c => if keepChar c then c else 95) =
      (fun c => if specAmendedChar c then c else 95) := by
    funext c
    rw [keepChar_eq_amended]
  simp only [sanitize_filename, sanitizeAmended, hfun]

/-- Witness for the amended claim C9. -/
theorem c9_sanitize_amended_witness :
    sanitize_filename (cp "a\tb") = sanitizeAmended (cp "a\tb") :=
  c9_sanitize_amended (cp "a\tb") (by decide)

/-! ## Claim C10 -/

/-- Claim C10: a urlencoded body that is not valid UTF-8 decodes to the
empty FormData with no error, and the empty FormData fails the CSRF
comparison against every non-empty token, so the submission is
silently dropped and rejected downstream. -/
theorem c10_invalid_utf8_urlencoded_dropped :
    (∀ body : List Nat, utf8Decode body = none →
      parse_urlencoded body = emptyFormData) ∧
    (∀ t : List Nat, t ≠ [] → tokenMatches emptyFormData t = false) := by
  constructor
  · intro body h
    unfold parse_urlencoded
    rw [h]
  · intro t ht
    simp [tokenMatches, emptyFormData, lookupVal, ht]

/-- Witness for claim C10 at a concrete invalid byte. -/
theorem c10_invalid_utf8_urlencoded_dropped_witness :
    parse_urlencoded [255] = emptyFormData ∧
    tokenMatches emptyFormData (cp "x") = false :=
  ⟨c10_invalid_utf8_urlencoded_dropped.1 [255] (by decide),
   c10_invalid_utf8_urlencoded_dropped.2 (cp "x") (by decide)⟩

/-! ## Claim C8 -/

/-- Upper-casing does not change digit-hood. -/
theorem isDigit_asciiUpper (c : Nat) : isDigit (asciiUpper c) = isDigit c := by
  simp only [asciiUpper, isDigit]
  split
  · rw [Bool.eq_iff_iff]
    simp only [Bool.and_eq_true, decide_eq_true_eq]
    omega
  · rfl

/-- The upper-cased unit suffix matched by the code equals the
case-insensitive unit of the claim regex. -/
theorem unitMultU_map_upper (rest : List Nat) :
    unitMultU (rest.map asciiUpper) = unitMultSpec rest := by
  match rest with
  | [] => rfl
  | [u] =>
    simp only [List.map_cons, List.map_nil, unitMultU, unitMultSpec, asciiUpper]
    split_ifs <;> first | rfl | omega
  | u1 :: u2 :: rest => rfl

/-- The code regex applied to the upper-cased string computes the claim
regex value of the original string. -/
theorem sizeMatch_upper (t : List Nat) :
    (match sizeMatchU (t.map asciiUpper) with
     | some p => some (p.1 * p.2)
     | none => none) = specSizeValue t := by
  have hcomp : (isDigit ∘ asciiUpper) = isDigit := funext fun c => isDigit_asciiUpper c
  have hdsid : (t.takeWhile isDigit).map asciiUpper = t.takeWhile isDigit := by
    have hmc : (t.takeWhile isDigit).map asciiUpper = (t.takeWhile isDigit).map id := by
      apply List.map_congr_left
      intro c hc
      have hd := List.mem_takeWhile_imp hc
      simp only [isDigit, Bool.and_eq_true, decide_eq_true_eq] at hd
      simp only [asciiUpper, id]
      rw [if_neg]
      omega
    rw [hmc, List.map_id]
  simp only [sizeMatchU, specSizeValue, List.takeWhile_map, hcomp, hdsid,
    List.length_map, ← List.map_drop, unitMultU_map_upper]
  cases hE : (t.takeWhile isDigit).isEmpty
  · simp only [Bool.false_eq_true, if_false]
    cases unitMultSpec (t.drop (t.takeWhile isDigit).length) with
    | none => rfl
    | some m => rfl
  · simp

/-- Claim C8, counterexample: the string with a leading space is
accepted by parse_size_limit although it does not match the claim
regex, because the code strips surrounding whitespace first. -/
theorem c8_counterexample :
    parse_size_limit (some (cp " 5M")) = .ok (some 5242880) ∧
    specSizeRegexAccepts (cp " 5M") = false := by
  exact ⟨by decide, by decide⟩

/-- Claim C8, amended: absent or empty input yields no limit; any other
ASCII input is first stripped of surrounding whitespace and then
accepted exactly when the claim regex matches case-insensitively, with
the digit value multiplied by the powers of 1024, and rejected with
InvalidSize otherwise. -/
theorem c8_size_limit_amended :
    parse_size_limit none = .ok none ∧
    parse_size_limit (some []) = .ok none ∧
    ∀ s : List Nat, (∀ c ∈ s, c < 128) → s ≠ [] →
      parse_size_limit (some s) =
        (match specSizeValue (pyStrip s) with
         | some n => .ok (some n)
         | none => .error .invalidSize) := by
  refine ⟨rfl, rfl, ?_⟩
  intro s hA hne
  have hEmp : s.isEmpty = false := by
    cases s
    · exact absurd rfl hne
    · rfl
  simp only [parse_size_limit, hEmp, Bool.false_eq_true, if_false]
  rw [← sizeMatch_upper (pyStrip s)]
  cases hm : sizeMatchU ((pyStrip s).map asciiUpper) with
  | none => rfl
  | some p =>
    obtain ⟨v, m⟩ := p
    rfl

/-- Witness for the amended claim C8 at a concrete accepted input. -/
theorem c8_size_limit_amended_witness :
    parse_size_limit (some (cp "2K")) =
      (match specSizeValue (pyStrip (cp "2K")) with
       | some n => .ok (some n)
       | none => .error .invalidSize) :=
  c8_size_limit_amended.2.2 (cp "2K") (by decide) (by decide)

/-! ## Claim C3 -/

/-- The outcome of do_POST for a request that reaches the decode stage
with a successfully decoded form is determined by the CSRF comparison
and the storage behaviour. -/
theorem do_POST_after_decode (cfg : HandlerConfig) (req : PostRequest)
    (fd : FormData) (h : requestFormResult cfg req = some (.ok fd)) :
    do_POST cfg req =
      if tokenMatches fd cfg.csrfToken then
        if req.storageFails && decide ((removeCsrf fd).files ≠ []) then
          ⟨500, false, true, false, none, false⟩
        else ⟨200, false, true, true, some (removeCsrf fd), true⟩
      else ⟨403, cfg.resetOnError, true, false, none, false⟩ := by
  unfold requestFormResult at h
  by_cases hp : pyUrlparsePath req.path ≠ cfg.endpoint
  · rw [if_pos hp] at h
    exact Option.noConfusion h
  · rw [if_neg hp] at h
    cases hcl : contentLengthOf req with
    | none =>
      rw [hcl] at h
      exact Option.noConfusion h
    | some cl =>
      rw [hcl] at h
      have h2 : (if cl > (effectiveMax cfg : Int)
          then (none : Option (Except MultipartError FormData))
          else some (decodeBody cfg (requestBody req cl) (req.contentTypeHdr.getD []))) =
          some (Except.ok fd) := h
      by_cases hcap : cl > (effectiveMax cfg : Int)
      · rw [if_pos hcap] at h2
        exact Option.noConfusion h2
      · rw [if_neg hcap, Option.some_inj] at h2
        simp only [do_POST, if_neg hp, hcl, if_neg hcap, h2]

/-- Claim C3: for every request that decodes to a form whose CSRF field
differs from the run token, the handler answers 403, invokes the
deadline reset under the reset-on-error configuration, publishes no
success and schedules no shutdown; and any later request that decodes
with the correct token succeeds with 200, a success publication and a
scheduled shutdown. -/
theorem c3_csrf_mismatch (cfg : HandlerConfig) (req : PostRequest) (fd : FormData)
    (hreset : cfg.resetOnError = true)
    (hform : requestFormResult cfg req = some (.ok fd))
    (htok : tokenMatches fd cfg.csrfToken = false) :
    do_POST cfg req = ⟨403, true, true, false, none, false⟩ ∧
    ∀ (req2 : PostRequest) (fd2 : FormData),
      requestFormResult cfg req2 = some (.ok fd2) →
      tokenMatches fd2 cfg.csrfToken = true → req2.storageFails = false →
      do_POST cfg req2 = ⟨200, false, true, true, some (removeCsrf fd2), true⟩ := by
  constructor
  · rw [do_POST_after_decode cfg req fd hform, if_neg (by simp [htok]), hreset]
  · intro req2 fd2 h2 ht2 hs2
    rw [do_POST_after_decode cfg req2 fd2 h2, if_pos (by simp [ht2]),
      if_neg (by simp [hs2])]

/-- Witness for claim C3: a wrong-token POST gets 403 with a deadline
reset and the matching-token POST succeeds. -/
theorem c3_csrf_mismatch_witness :
    do_POST ⟨cp "t", cp "/e", none, none, true⟩
      ⟨cp "/e", none, some (cp "13"), cp "_csrf_token=w", false⟩ =
      ⟨403, true, true, false, none, false⟩ ∧
    do_POST ⟨cp "t", cp "/e", none, none, true⟩
      ⟨cp "/e", none, some (cp "13"), cp "_csrf_token=t", false⟩ =
      ⟨200, false, true, true,
        some (removeCsrf ⟨[(some (cp "_csrf_token"), .single (cp "t"))], []⟩), true⟩ :=
  ⟨(c3_csrf_mismatch ⟨cp "t", cp "/e", none, none, true⟩
      ⟨cp "/e", none, some (cp "13"), cp "_csrf_token=w", false⟩
      ⟨[(some (cp "_csrf_token"), .single (cp "w"))], []⟩
      rfl (by decide) (by decide)).1,
   (c3_csrf_mismatch ⟨cp "t", cp "/e", none, none, true⟩
      ⟨cp "/e", none, some (cp "13"), cp "_csrf_token=w", false⟩
      ⟨[(some (cp "_csrf_token"), .single (cp "w"))], []⟩
      rfl (by decide) (by decide)).2
     ⟨cp "/e", none, some (cp "13"), cp "_csrf_token=t", false⟩
     ⟨[(some (cp "_csrf_token"), .single (cp "t"))], []⟩
     (by decide) (by decide) rfl⟩

/-! ## Claim C6 -/

/-- A successful attempt of the parameter regex never yields the empty
string: the unquoted alternative captures at least one character, and
an empty quoted capture collapses to nothing through the Python or. -/
theorem extractHere_ne_empty (rest : List Nat) (r : Option (List Nat))
    (h : extractHere rest = some r) : r ≠ some [] := by
  rw [extractHere.eq_def] at h
  split at h
  · dsimp only at h
    split at h
    · rw [Option.some_inj] at h
      subst h
      split
      · exact fun hc => Option.noConfusion hc
      next h2 =>
        intro hc
        rw [Option.some_inj] at hc
        rw [hc] at h2
        simp at h2
    · rw [Option.some_inj] at h
      subst h
      intro hc
      rw [Option.some_inj] at hc
      have h34 : paramTokChar 34 = true := by decide
      simp [List.takeWhile_cons, h34] at hc
  · dsimp only at h
    split at h
    · exact Option.noConfusion h
    next h2 =>
      rw [Option.some_inj] at h
      subst h
      intro hc
      rw [Option.some_inj] at hc
      rw [hc] at h2
      simp at h2

/-- The scan of the parameter regex never returns the empty string. -/
theorem extract_value_ne_empty (header param : List Nat) :
    extract_value_from_header header param ≠ some [] := by
  unfold extract_value_from_header
  induction header with
  | nil => simp [extractScan]
  | cons c tl ih =>
    rw [extractScan.eq_def]
    dsimp only
    by_cases hL : lowerStarts (param ++ [61]) (c :: tl) = true
    · rw [if_pos hL]
      cases hE : extractHere (List.drop (param.length + 1) (c :: tl)) with
      | some r =>
        simp only [hE]
        exact extractHere_ne_empty _ r hE
      | none =>
        simp only [hE]
        exact ih
    · rw [if_neg hL]
      exact ih

/-- Claim C6, counterexample: an empty quoted filename parameter
extracts as nothing, and the part carrying it is recorded as a field,
not as a file, contrary to the claim that an empty filename makes a
file part. -/
theorem c6_counterexample :
    extract_value_from_header (cp "form-data; name=\"a\"; filename=\"\"")
      (cp "filename") = none ∧
    parse_multipart
      (cp "--b\r\nContent-Disposition: form-data; name=\"a\"; filename=\"\"\r\n\r\nx\r\n--b--")
      (cp "multipart/form-data; boundary=b") none none =
      .ok ⟨[(some (cp "a"), .single (cp "x"))], []⟩ := by
  exact ⟨by decide, by decide⟩

/-- Claim C6, amended: filename extraction never yields the empty
string — an empty quoted filename extracts as missing — and a
non-empty part is recorded under files exactly when its
Content-Disposition filename extraction yields a value, with the
fields map untouched, and under fields otherwise; file parts whose
content exceeds a truthy max_file_size fail with FileSizeExceeded. -/
theorem c6_file_part_classification :
    (∀ header param : List Nat, extract_value_from_header header param ≠ some []) ∧
    (∀ (mfs : Option Nat) (st : FormData) (part : List Nat) (fd : FormData),
      part ≠ [] → processPart mfs st part = .ok fd →
      (∀ f, partFilename part = some f →
        fd.fields = st.fields ∧
        fd.files = addFileAssoc st.files (partName part)
          ⟨f, partContent part, partContentType part, (partContent part).length⟩) ∧
      (partFilename part = none →
        fd.files = st.files ∧
        fd.fields = addFieldAssoc st.fields (partName part)
          (decodeFieldContent (partContent part)))) ∧
    (∀ (m : Nat) (st : FormData) (part : List Nat) (f : List Nat),
      partFilename part = some f → m ≠ 0 → (partContent part).length > m →
      processPart (some m) st part =
        .error (.fileSizeExceeded f (partContent part).length m)) := by
  refine ⟨extract_value_ne_empty, ?_, ?_⟩
  · intro mfs st part fd hne h
    have hemp : part.isEmpty = false := by
      cases part
      · exact absurd rfl hne
      · rfl
    unfold processPart at h
    rw [hemp] at h
    simp only [Bool.false_eq_true, if_false] at h
    constructor
    · intro f hfn
      rw [hfn] at h
      dsimp only at h
      have hf : f.isEmpty = false := by
        cases hfe : f
        · exfalso
          apply extract_value_ne_empty (partDisposition part) (cp "filename")
          rw [← partFilename, hfn, hfe]
        · rfl
      rw [hf] at h
      simp only [Bool.false_eq_true, if_false] at h
      split at h
      · exact Except.noConfusion h
      · rw [Except.ok.injEq] at h
        subst h
        exact ⟨rfl, rfl⟩
    · intro hfn
      rw [hfn] at h
      dsimp only at h
      rw [Except.ok.injEq] at h
      subst h
      exact ⟨rfl, rfl⟩
  · intro m st part f hfn hm hlen
    have hne : part ≠ [] := by
      intro hp
      rw [hp] at hfn
      have hnone : partFilename [] = none := by decide
      rw [hnone] at hfn
      exact Option.noConfusion hfn
    have hemp : part.isEmpty = false := by
      cases part
      · exact absurd rfl hne
      · rfl
    have hf : f.isEmpty = false := by
      cases hfe : f
      · exfalso
        apply extract_value_ne_empty (partDisposition part) (cp "filename")
        rw [← partFilename, hfn, hfe]
      · rfl
    have hbig : fileTooBig (some m) (partContent part) = true := by
      simp only [fileTooBig, Bool.and_eq_true, decide_eq_true_eq]
      exact ⟨hm, hlen⟩
    unfold processPart
    rw [hemp]
    simp only [Bool.false_eq_true, if_false, hfn, hf, hbig, if_true]
    rfl

/-- Part used by the witness of the amended claim C6. -/
def c6part : List Nat :=
  cp "Content-Disposition: form-data; name=\"f\"; filename=\"t.txt\"\r\n\r\nhello"

/-- Witness for the amended claim C6: a concrete file part leaves the
fields untouched and exceeds a small per-file cap. -/
theorem c6_file_part_classification_witness :
    ((⟨[], [(some (cp "f"),
        FileValue.singleF ⟨cp "t.txt", cp "hello", cp "application/octet-stream", 5⟩)]⟩ :
      FormData).fields = emptyFormData.fields ∧
     (⟨[], [(some (cp "f"),
        FileValue.singleF ⟨cp "t.txt", cp "hello", cp "application/octet-stream", 5⟩)]⟩ :
      FormData).files = addFileAssoc emptyFormData.files (partName c6part)
        ⟨cp "t.txt", partContent c6part, partContentType c6part,
          (partContent c6part).length⟩) ∧
    processPart (some 3) emptyFormData c6part =
      .error (.fileSizeExceeded (cp "t.txt") (partContent c6part).length 3) :=
  ⟨(c6_file_part_classification.2.1 none emptyFormData c6part
      ⟨[], [(some (cp "f"),
        FileValue.singleF ⟨cp "t.txt", cp "hello", cp "application/octet-stream", 5⟩)]⟩
      (by decide) (by decide)).1 (cp "t.txt") (by decide),
   c6_file_part_classification.2.2 3 emptyFormData c6part (cp "t.txt")
     (by decide) (by decide) (by decide)⟩

/-! ## Claim C7 -/

/-- Values of the occurrences of one key in a list of pairs, in
submission order. -/
def occVals {K : Type} [DecidableEq K] (n : K) (ps : List (K × List Nat)) :
    List (List Nat) :=
  (ps.filter fun p => decide (p.1 = n)).map Prod.snd

/-- Effect of one add_field on the value bound to a name. -/
def pushVal (o : Option FieldValue) (v : List Nat) : FieldValue :=
  match o with
  | none => .single v
  | some fv => pushFV fv v

/-- FormData fields built by add_field over a pair list from scratch. -/
def addFields (ps : List (Option (List Nat) × List Nat)) :
    List (Option (List Nat) × FieldValue) :=
  ps.foldl (fun acc p => addFieldAssoc acc p.1 p.2) []

/-- Entry shape demanded by the repetition rule: absent for no
occurrence, the single string for one, the ordered list for several. -/
def promoteOpt (vs : List (List Nat)) : Option FieldValue :=
  match vs with
  | [] => none
  | vs => some (collapseVals vs)

/-- Lookup after one add_field. -/
theorem lookupVal_addFieldAssoc (fs : List (Option (List Nat) × FieldValue))
    (k n : Option (List Nat)) (v : List Nat) :
    lookupVal n (addFieldAssoc fs k v) =
      if k = n then some (pushVal (lookupVal n fs) v) else lookupVal n fs := by
  induction fs with
  | nil =>
    by_cases hkn : k = n <;> simp [addFieldAssoc, lookupVal, pushVal, hkn]
  | cons p rest ih =>
    obtain ⟨k0, fv0⟩ := p
    by_cases h1 : k0 = k
    · subst h1
      by_cases h2 : k0 = n
      · subst h2
        simp [addFieldAssoc, lookupVal, pushVal]
      · simp [addFieldAssoc, lookupVal, h2]
    · by_cases h2 : k0 = n
      · subst h2
        have hkn : k ≠ k0 := fun hc => h1 hc.symm
        simp [addFieldAssoc, lookupVal, h1, hkn]
      · simp [addFieldAssoc, lookupVal, h1, h2, ih]

/-- Accumulated effect of a value sequence on one entry. -/
def applyAll (o : Option FieldValue) (vs : List (List Nat)) : Option FieldValue :=
  vs.foldl (fun o v => some (pushVal o v)) o

/-- Lookup through the add_field fold, for an arbitrary accumulator. -/
theorem lookupVal_foldl_addField (ps : List (Option (List Nat) × List Nat)) :
    ∀ (acc : List (Option (List Nat) × FieldValue)) (n : Option (List Nat)),
    lookupVal n (ps.foldl (fun a p => addFieldAssoc a p.1 p.2) acc) =
      applyAll (lookupVal n acc) (occVals n ps) := by
  induction ps with
  | nil => intro acc n; rfl
  | cons p rest ih =>
    intro acc n
    obtain ⟨k, v⟩ := p
    rw [List.foldl_cons, ih]
    by_cases hk : k = n
    · rw [lookupVal_addFieldAssoc, if_pos hk]
      simp [occVals, List.filter_cons, hk, applyAll]
    · rw [lookupVal_addFieldAssoc, if_neg hk]
      simp [occVals, List.filter_cons, hk]

/-- Chained promotion from a list value. -/
theorem applyAll_multi (vs : List (List Nat)) :
    ∀ es : List (List Nat), applyAll (some (.multi es)) vs = some (.multi (es ++ vs)) := by
  induction vs with
  | nil => intro es; simp [applyAll]
  | cons v rest ih =>
    intro es
    have hstep : applyAll (some (.multi es)) (v :: rest) =
        applyAll (some (.multi (es ++ [v]))) rest := rfl
    rw [hstep, ih]
    simp

/-- Chained promotion from nothing is exactly the promotion rule. -/
theorem applyAll_none (vs : List (List Nat)) : applyAll none vs = promoteOpt vs := by
  cases vs with
  | nil => rfl
  | cons v rest =>
    cases rest with
    | nil => rfl
    | cons w ws =>
      have hstep : applyAll none (v :: w :: ws) =
          applyAll (some (.multi [v, w])) ws := rfl
      rw [hstep, applyAll_multi]
      rfl

/-- Lookup in fields built by add_field follows the promotion rule. -/
theorem lookupVal_addFields (ps : List (Option (List Nat) × List Nat))
    (n : Option (List Nat)) :
    lookupVal n (addFields ps) = promoteOpt (occVals n ps) := by
  unfold addFields
  rw [lookupVal_foldl_addField]
  exact applyAll_none _

/-- First value list bound to a key in the parse_qs grouping. -/
def lookupGrp (k : List Nat) : List (List Nat × List (List Nat)) →
    Option (List (List Nat))
  | [] => none
  | (k0, vs) :: rest => if k0 = k then some vs else lookupGrp k rest

/-- Lookup after one grouping step. -/
theorem lookupGrp_pyGroupAdd (gs : List (List Nat × List (List Nat)))
    (k n : List Nat) (v : List Nat) :
    lookupGrp n (pyGroupAdd gs k v) =
      if k = n then some ((lookupGrp n gs).getD [] ++ [v]) else lookupGrp n gs := by
  induction gs with
  | nil =>
    by_cases hkn : k = n <;> simp [pyGroupAdd, lookupGrp, hkn]
  | cons g rest ih =>
    obtain ⟨k0, vs0⟩ := g
    by_cases h1 : k0 = k
    · subst h1
      by_cases h2 : k0 = n
      · subst h2
        simp [pyGroupAdd, lookupGrp]
      · simp [pyGroupAdd, lookupGrp, h2]
    · by_cases h2 : k0 = n
      · subst h2
        have hkn : k ≠ k0 := fun hc => h1 hc.symm
        simp [pyGroupAdd, lookupGrp, h1, hkn]
      · simp [pyGroupAdd, lookupGrp, h1, h2, ih]

/-- Accumulated effect of occurrences on one group. -/
def applyGrp (o : Option (List (List Nat))) (vs : List (List Nat)) :
    Option (List (List Nat)) :=
  vs.foldl (fun o v => some (o.getD [] ++ [v])) o

/-- Lookup through the grouping fold, for an arbitrary accumulator. -/
theorem lookupGrp_foldl (ps : List (List Nat × List Nat)) :
    ∀ (acc : List (List Nat × List (List Nat))) (n : List Nat),
    lookupGrp n (ps.foldl (fun a p => pyGroupAdd a p.1 p.2) acc) =
      applyGrp (lookupGrp n acc) (occVals n ps) := by
  induction ps with
  | nil => intro acc n; rfl
  | cons p rest ih =>
    intro acc n
    obtain ⟨k, v⟩ := p
    rw [List.foldl_cons, ih]
    by_cases hk : k = n
    · rw [lookupGrp_pyGroupAdd, if_pos hk]
      simp [occVals, List.filter_cons, hk, applyGrp]
    · rw [lookupGrp_pyGroupAdd, if_neg hk]
      simp [occVals, List.filter_cons, hk]

/-- Appending occurrences to an existing group. -/
theorem applyGrp_some (vs : List (List Nat)) :
    ∀ es : List (List Nat), applyGrp (some es) vs = some (es ++ vs) := by
  induction vs with
  | nil => intro es; simp [applyGrp]
  | cons v rest ih =>
    intro es
    have hstep : applyGrp (some es) (v :: rest) =
        applyGrp (some (es ++ [v])) rest := rfl
    rw [hstep, ih]
    simp

/-- A fresh group collects exactly the occurrence list. -/
theorem applyGrp_none (vs : List (List Nat)) :
    applyGrp none vs = if vs = [] then none else some vs := by
  cases vs with
  | nil => rfl
  | cons v rest =>
    have hstep : applyGrp none (v :: rest) = applyGrp (some [v]) rest := rfl
    rw [hstep, applyGrp_some]
    simp

/-- Lookup in the parse_qs grouping is the occurrence list. -/
theorem lookupGrp_pyGroup (ps : List (List Nat × List Nat)) (n : List Nat) :
    lookupGrp n (pyGroup ps) =
      if occVals n ps = [] then none else some (occVals n ps) := by
  unfold pyGroup
  rw [lookupGrp_foldl]
  exact applyGrp_none _

/-- Lookup through the collapse map of parse_urlencoded. -/
theorem lookupVal_collapse_map (gs : List (List Nat × List (List Nat)))
    (n : List Nat) :
    lookupVal (some n) (gs.map fun g => (some g.1, collapseVals g.2)) =
      (lookupGrp n gs).map collapseVals := by
  induction gs with
  | nil => rfl
  | cons g rest ih =>
    obtain ⟨k, vs⟩ := g
    by_cases hk : k = n
    · subst hk
      simp [lookupVal, lookupGrp]
    · simp [lookupVal, lookupGrp, hk, ih]

/-- Field entry contributed by one multipart part, when it is a field
part. -/
def partFieldEntry (part : List Nat) : Option (Option (List Nat) × List Nat) :=
  if part.isEmpty then none
  else
    match partFilename part with
    | some f =>
      if f.isEmpty then some (partName part, decodeFieldContent (partContent part))
      else none
    | none => some (partName part, decodeFieldContent (partContent part))

/-- The fields after one processPart step follow the part field
entry. -/
theorem processPart_fields (mfs : Option Nat) (st : FormData) (part : List Nat)
    (fd : FormData) (h : processPart mfs st part = .ok fd) :
    fd.fields =
      match partFieldEntry part with
      | some e => addFieldAssoc st.fields e.1 e.2
      | none => st.fields := by
  unfold processPart at h
  unfold partFieldEntry
  by_cases hemp : part.isEmpty = true
  · rw [if_pos hemp] at h ⊢
    rw [Except.ok.injEq] at h
    subst h
    rfl
  · rw [if_neg hemp] at h ⊢
    cases hfn : partFilename part with
    | some f =>
      rw [hfn] at h
      dsimp only at h ⊢
      by_cases hf : f.isEmpty = true
      · rw [if_pos hf] at h ⊢
        dsimp only at h ⊢
        rw [Except.ok.injEq] at h
        subst h
        rfl
      · rw [if_neg hf] at h ⊢
        dsimp only at h ⊢
        split at h
        · exact Except.noConfusion h
        · rw [Except.ok.injEq] at h
          subst h
          rfl
    | none =>
      rw [hfn] at h
      dsimp only at h ⊢
      rw [Except.ok.injEq] at h
      subst h
      rfl

/-- Fields of a successful part fold are the add_field fold over the
field entries of the parts. -/
theorem foldlM_processPart_fields (mfs : Option Nat) :
    ∀ (parts : List (List Nat)) (st fd : FormData),
    parts.foldlM (processPart mfs) st = .ok fd →
    fd.fields = (parts.filterMap partFieldEntry).foldl
      (fun a e => addFieldAssoc a e.1 e.2) st.fields := by
  intro parts
  induction parts with
  | nil =>
    intro st fd h
    simp only [List.foldlM_nil, pure, Except.pure] at h
    rw [Except.ok.injEq] at h
    subst h
    rfl
  | cons part rest ih =>
    intro st fd h
    rw [List.foldlM_cons] at h
    cases hp : processPart mfs st part with
    | error e =>
      rw [hp] at h
      simp only [bind, Except.bind] at h
      exact Except.noConfusion h
    | ok st1 =>
      rw [hp] at h
      simp only [bind, Except.bind] at h
      have h1 := processPart_fields mfs st part st1 hp
      rw [List.filterMap_cons]
      cases hE : partFieldEntry part with
      | none =>
        rw [hE] at h1
        dsimp only at h1
        simp only [hE]
        rw [ih st1 fd h, h1]
      | some e =>
        rw [hE] at h1
        dsimp only at h1
        simp only [hE, List.foldl_cons]
        rw [ih st1 fd h, h1]

/-- Field-part occurrences of a multipart body, in part order. -/
def multipartFieldOccs (body ct : List Nat) :
    List (Option (List Nat) × List Nat) :=
  match extract_boundary ct with
  | some b => (split_multipart_body body b).filterMap partFieldEntry
  | none => []

/-- Claim C7: in a successfully decoded multipart body the entry for a
name is absent, the single string or the ordered list of its field
occurrences according to their number; and in a urlencoded body the
entry for a name follows its occurrence list in the parsed query
string in exactly the same way. -/
theorem c7_repeated_fields :
    (∀ (body ct : List Nat) (mfs mts : Option Nat) (fd : FormData)
       (n : Option (List Nat)),
      parse_multipart body ct mfs mts = .ok fd →
      lookupVal n fd.fields = promoteOpt (occVals n (multipartFieldOccs body ct))) ∧
    (∀ (body s : List Nat) (n : List Nat), utf8Decode body = some s →
      lookupVal (some n) (parse_urlencoded body).fields =
        promoteOpt (occVals n (parse_qsl s))) := by
  constructor
  · intro body ct mfs mts fd n h
    unfold parse_multipart at h
    split at h
    · exact Except.noConfusion h
    · cases hB : extract_boundary ct with
      | none =>
        rw [hB] at h
        exact Except.noConfusion h
      | some b =>
        rw [hB] at h
        dsimp only at h
        by_cases hbe : b.isEmpty = true
        · rw [if_pos hbe] at h
          exact Except.noConfusion h
        · rw [if_neg hbe] at h
          have hf := foldlM_processPart_fields mfs (split_multipart_body body b)
            emptyFormData fd h
          rw [hf]
          unfold multipartFieldOccs
          rw [hB]
          exact lookupVal_addFields _ n
  · intro body s n hdec
    unfold parse_urlencoded
    rw [hdec]
    dsimp only
    rw [lookupVal_collapse_map, lookupGrp_pyGroup]
    by_cases hocc : occVals n (parse_qsl s) = []
    · rw [if_pos hocc, hocc]
      rfl
    · rw [if_neg hocc]
      cases hv : occVals n (parse_qsl s) with
      | nil => exact absurd hv hocc
      | cons v vs => rfl

/-- Witness for claim C7: a body with a repeated name yields the
two-element ordered list for it. -/
theorem c7_repeated_fields_witness :
    lookupVal (some (cp "a")) (parse_urlencoded (cp "a=1&a=2&b=3")).fields =
      promoteOpt (occVals (cp "a") (parse_qsl (cp "a=1&a=2&b=3"))) ∧
    promoteOpt (occVals (cp "a") (parse_qsl (cp "a=1&a=2&b=3"))) =
      some (.multi [cp "1", cp "2"]) :=
  ⟨c7_repeated_fields.2 (cp "a=1&a=2&b=3") (cp "a=1&a=2&b=3") (cp "a") (by decide),
   by decide⟩

end RWF
